import Mathlib

/-!
Verification of the backtesting core of LLMEdgefund.

The Python sources under `src/` are embedded shallowly:
* money amounts and prices (Python floats) become rationals `ℚ`,
* share quantities (Python ints) become integers `ℤ`,
* the mutable `Backtester` object becomes explicit state records,
* calls that may raise become `Option`/`Except` values,
* the external price source and the strategy oracle become explicit
  inputs (`Option`-valued, `none` marking a raised exception).
-/

namespace LLMEdgefund

/-- The `self.portfolio` dict of `Backtester`: `{"cash": ..., "stock": ...}`. -/
structure Portfolio where
  cash : ℚ
  stock : ℤ
  deriving DecidableEq, Repr

/-- One entry of `self.trades` as appended by `Backtester.execute_trade`
(the `date` field, taken from the ambient clock `datetime.now()`, is not
modelled). -/
structure TradeRecord where
  action : String
  quantity : ℤ
  price : ℚ
  total : ℚ
  deriving DecidableEq, Repr

/-- Embedding of `Backtester.execute_trade(action, quantity, current_price)`
(src/backtester.py lines 51-95).  The method mutates `self.portfolio` and
`self.trades` and returns the filled quantity; here it maps the pre-state
`(p, tr)` to the post-state together with the returned fill.
`int(cash // price)` is Python float floor division followed by `int`,
i.e. `⌊cash / price⌋`. -/
def executeTrade (p : Portfolio) (tr : List TradeRecord)
    (action : String) (quantity : ℤ) (price : ℚ) :
    Portfolio × List TradeRecord × ℤ :=
  if action = "buy" ∧ 0 < quantity then
    let cost : ℚ := quantity * price
    if cost ≤ p.cash then
      (⟨p.cash - cost, p.stock + quantity⟩,
       tr ++ [⟨"buy", quantity, price, cost⟩], quantity)
    else
      let maxQuantity : ℤ := ⌊p.cash / price⌋
      if 0 < maxQuantity then
        (⟨p.cash - maxQuantity * price, p.stock + maxQuantity⟩,
         tr ++ [⟨"buy", maxQuantity, price, maxQuantity * price⟩], maxQuantity)
      else
        (p, tr, 0)
  else if action = "sell" ∧ 0 < quantity then
    let q : ℤ := min quantity p.stock
    if 0 < q then
      (⟨p.cash + q * price, p.stock - q⟩,
       tr ++ [⟨"sell", q, price, q * price⟩], q)
    else
      (p, tr, 0)
  else
    (p, tr, 0)

/-- An order as fed to one `execute_trade` call. -/
structure Order where
  action : String
  quantity : ℤ
  price : ℚ
  deriving DecidableEq, Repr

/-- Apply one order to the `(portfolio, trades)` state, discarding the
returned fill (as `run_backtest`'s state evolution does). -/
def applyOrder (s : Portfolio × List TradeRecord) (o : Order) :
    Portfolio × List TradeRecord :=
  let r := executeTrade s.1 s.2 o.action o.quantity o.price
  (r.1, r.2.1)

/-- Apply a sequence of orders, as the day-by-day loop does. -/
def applyOrders (s : Portfolio × List TradeRecord) (orders : List Order) :
    Portfolio × List TradeRecord :=
  orders.foldl applyOrder s

/-- Python's `int()` conversion of a float/rational: truncation toward zero. -/
def truncRat (q : ℚ) : ℤ :=
  if 0 ≤ q then ⌊q⌋ else ⌈q⌉

/-- Embedding of `Backtester.simulate_buy_and_hold` (src/backtester.py lines
97-108) on the `close` column of the price data.  `iloc[0]` on an empty frame
raises (`none`); otherwise `shares = int(initial_capital / initial_price)`,
`remaining_cash = initial_capital - shares * initial_price`, and one benchmark
value `shares * close + remaining_cash` is appended per bar. -/
def simulateBuyAndHold (initialCapital : ℚ) (closes : List ℚ) :
    Option (List ℚ) :=
  match closes with
  | [] => none
  | p0 :: rest =>
    let shares : ℤ := truncRat (initialCapital / p0)
    let remainingCash : ℚ := initialCapital - shares * p0
    some ((p0 :: rest).map (fun p => shares * p + remainingCash))

/-- Embedding of pandas `Series.rolling(window=w).mean()`: entry `i` is
defined only once the window is filled (`w ≤ i + 1`) and is then the mean of
the `w` entries ending at index `i`; earlier entries are missing (NaN). -/
def rollingMean (w : ℕ) (xs : List ℚ) : List (Option ℚ) :=
  (List.range xs.length).map (fun i =>
    if i + 1 < w then none
    else some (((xs.take (i + 1)).drop (i + 1 - w)).sum / (w : ℚ)))

/-- Embedding of `DataFrame.fillna(0)` on one column: missing values become 0. -/
def fillna0 (xs : List (Option ℚ)) : List ℚ :=
  xs.map (fun o => o.getD 0)

/-- The `sma_w` column of `calculate_trading_signals` after `fillna(0)`
(src/market_data.py lines 78-80 and 103). -/
def smaSeries (w : ℕ) (closes : List ℚ) : List ℚ :=
  fillna0 (rollingMean w closes)

/-- The SMA part of the signal dict built by `calculate_trading_signals`
(src/market_data.py lines 106-117).  The RSI/MACD/volatility entries play no
role in the claims and are left out of the model. -/
structure TradingSignals where
  currentPrice : ℚ
  sma5 : ℚ
  sma20 : ℚ
  sma50 : ℚ
  deriving DecidableEq, Repr

/-- Embedding of `MarketDataService.calculate_trading_signals`
(src/market_data.py lines 63-122) restricted to the close column: empty input
raises `ValueError` (wrapped into `Exception` by the outer handler); otherwise
each reported indicator is `iloc[-1]` of its `fillna(0)`-filled column. -/
def calculateTradingSignals (closes : List ℚ) :
    Except String TradingSignals :=
  if closes.isEmpty then
    .error "Error calculating trading signals: No historical data provided"
  else
    .ok { currentPrice := closes.getLastD 0
          sma5 := (smaSeries 5 closes).getLastD 0
          sma20 := (smaSeries 20 closes).getLastD 0
          sma50 := (smaSeries 50 closes).getLastD 0 }

/-- Digit-string to number, as inside Python's `int(str)`: every character
must be a decimal digit and there must be at least one. -/
def parseDigits (cs : List Char) : Option ℕ :=
  match cs with
  | [] => none
  | _ :: _ =>
    cs.foldl
      (fun acc c =>
        acc.bind (fun n =>
          if c.isDigit then some (10 * n + (c.toNat - 48)) else none))
      (some 0)

/-- Embedding of Python's `str.strip()` on the character list: drop leading
and trailing whitespace. -/
def trimChars (cs : List Char) : List Char :=
  ((cs.dropWhile Char.isWhitespace).reverse.dropWhile Char.isWhitespace).reverse

/-- Embedding of Python's `str.strip()`. -/
def pyStrip (s : String) : String :=
  String.mk (trimChars s.data)

/-- Embedding of Python's `str.split(sep)` for a one-character separator:
maximal runs between separator occurrences, empty runs included. -/
def splitCharsOn (sep : Char) : List Char → List (List Char)
  | [] => [[]]
  | c :: cs =>
    match splitCharsOn sep cs with
    | [] => [[]]
    | y :: ys => if c = sep then [] :: y :: ys else (c :: y) :: ys

/-- Python's `result.split('\n')`. -/
def splitLines (s : String) : List String :=
  (splitCharsOn '\n' s.data).map String.mk

/-- Embedding of Python's `int(str)` builtin on its common inputs: strip
surrounding whitespace, allow one optional sign, then decimal digits;
anything else raises `ValueError` (`none`).  (Underscore digit grouping and
non-ASCII digits, which CPython also accepts, are not modelled; no claim
depends on them.) -/
def pyIntOfString (s : String) : Option ℤ :=
  match (pyStrip s).data with
  | [] => none
  | c :: cs =>
    if c = '-' then (parseDigits cs).map (fun n => -(n : ℤ))
    else if c = '+' then (parseDigits cs).map (fun n => (n : ℤ))
    else (parseDigits (c :: cs)).map (fun n => (n : ℤ))

/-- Splitting at the first colon of a character list: `none` when there is no
colon, otherwise the characters before it and the characters after it. -/
def splitFirstColonChars : List Char → Option (List Char × List Char)
  | [] => none
  | c :: cs =>
    if c = ':' then some ([], cs)
    else (splitFirstColonChars cs).map (fun p => (c :: p.1, p.2))

/-- Python's `line.split(':', 1)` guarded by `if ':' in line`: `none` when the
line has no colon, otherwise the text before the first colon and the text
after it. -/
def splitFirstColon (line : String) : Option (String × String) :=
  (splitFirstColonChars line.data).map (fun p => (String.mk p.1, String.mk p.2))

/-- The key/value pairs collected into the `decision` dict by
`Backtester.parse_trading_decision` (src/backtester.py lines 32-37), in line
order: the whole text is stripped, split into lines, and every line holding a
colon contributes its stripped key and stripped value. -/
def decisionPairs (result : String) : List (String × String) :=
  (splitLines (pyStrip result)).filterMap (fun line =>
    (splitFirstColon line).map (fun kv => (pyStrip kv.1, pyStrip kv.2)))

/-- Lookup in the `decision` dict: repeated keys overwrite, so the last pair
with the given key wins. -/
def lookupLast (pairs : List (String × String)) (key : String) :
    Option String :=
  (pairs.reverse.find? (fun kv => kv.1 == key)).map (fun kv => kv.2)

/-- Embedding of `Backtester.parse_trading_decision` (src/backtester.py lines
29-49): the action defaults to `"hold"`, the quantity is `int(...)` of the
`"quantity"` value (default string `"0"`) with any conversion failure caught
and replaced by 0.  The function is total: every input yields a pair. -/
def parseTradingDecision (result : String) : String × ℤ :=
  let pairs := decisionPairs result
  let action := (lookupLast pairs "action").getD "hold"
  let quantity := (pyIntOfString ((lookupLast pairs "quantity").getD "0")).getD 0
  (action, quantity)

/-- One entry of `self.portfolio_values` as appended by `run_backtest`
(src/backtester.py lines 162-168); the `Date` field is the loop's date. -/
structure Snapshot where
  totalValue : ℚ
  cash : ℚ
  stock : ℤ
  stockPrice : ℚ
  deriving DecidableEq, Repr

/-- The constructor arguments of `Backtester.__init__` that the claims
mention (the two service objects are external collaborators). -/
structure BacktesterConfig where
  ticker : String
  startDate : String
  endDate : String
  initialCapital : ℚ
  deriving DecidableEq, Repr

/-- The mutable fields of a `Backtester` instance. -/
structure BacktesterState where
  portfolio : Portfolio
  portfolioValues : List Snapshot
  trades : List TradeRecord
  benchmarkValues : List ℚ
  deriving DecidableEq, Repr

/-- Embedding of `Backtester.__init__` (src/backtester.py lines 9-27): it
stores its arguments and initial state and performs no validation of the date
range or the capital — it cannot fail. -/
def initBacktester (cfg : BacktesterConfig) : BacktesterState :=
  { portfolio := ⟨cfg.initialCapital, 0⟩
    portfolioValues := []
    trades := []
    benchmarkValues := [] }

/-- The per-day external inputs of the `run_backtest` loop: the strategy
workflow's decision text and the day's close price, each `none` when the
corresponding call raises (workflow failure, or no price data for the day). -/
structure DayInput where
  date : String
  decisionText : Option String
  price : Option ℚ
  deriving DecidableEq, Repr

/-- One iteration of the `for current_date in dates` loop of `run_backtest`
(src/backtester.py lines 124-178).  The body runs under `try/except ...
continue`: if the workflow call or the day's price fetch raises, the day is
skipped with the state untouched; otherwise the decision is parsed, the trade
executed, and a snapshot of the post-trade state appended. -/
def processDay (st : BacktesterState) (d : DayInput) : BacktesterState :=
  match d.decisionText with
  | none => st
  | some txt =>
    let ad := parseTradingDecision txt
    match d.price with
    | none => st
    | some price =>
      let r := executeTrade st.portfolio st.trades ad.1 ad.2 price
      let totalValue := r.1.cash + r.1.stock * price
      { st with
        portfolio := r.1
        trades := r.2.1
        portfolioValues := st.portfolioValues ++
          [⟨totalValue, r.1.cash, r.1.stock, price⟩] }

/-- The whole day loop of `run_backtest`. -/
def runDays (st : BacktesterState) (days : List DayInput) : BacktesterState :=
  days.foldl processDay st

/-- One call to `MarketDataService.get_price_data(ticker, start, end)`, i.e.
one query issued to the external price source. -/
structure PriceQuery where
  ticker : String
  startDate : String
  endDate : String
  deriving DecidableEq, Repr

/-- The per-day price queries `run_backtest` issues: one for each day whose
workflow call returned (a day whose workflow call raised is skipped before
its price fetch). -/
def dayQueries (ticker : String) (days : List DayInput) : List PriceQuery :=
  days.filterMap (fun d =>
    d.decisionText.map (fun _ => ⟨ticker, d.date, d.date⟩))

/-- Embedding of `Backtester.run_backtest` (src/backtester.py lines 110-178):
first the complete-range price query is issued (`none` = `get_price_data`
raised, which propagates, there being no handler around it), then
`simulate_buy_and_hold` runs on the result (raising on an empty frame), and
then the day loop runs.  Returned: the external price queries issued, and the
final state or the uncaught exception. -/
def runBacktest (cfg : BacktesterConfig) (st : BacktesterState)
    (completeData : Option (List ℚ)) (days : List DayInput) :
    List PriceQuery × Except String BacktesterState :=
  let firstQuery : PriceQuery := ⟨cfg.ticker, cfg.startDate, cfg.endDate⟩
  match completeData with
  | none => ([firstQuery], .error "Error fetching data from Yahoo Finance")
  | some data =>
    match simulateBuyAndHold cfg.initialCapital data with
    | none => ([firstQuery], .error "single positional indexer is out-of-bounds")
    | some bench =>
      (firstQuery :: dayQueries cfg.ticker days,
       .ok (runDays { st with benchmarkValues := st.benchmarkValues ++ bench }
         days))

/-- Embedding of pandas `Series.cummax` given the running maximum so far. -/
def cummaxAux (m : ℚ) : List ℚ → List ℚ
  | [] => []
  | x :: xs => max m x :: cummaxAux (max m x) xs

/-- Embedding of pandas `Series.cummax()`. -/
def cummax : List ℚ → List ℚ
  | [] => []
  | x :: xs => x :: cummaxAux x xs

/-- Minimum of a list with a default for the empty list, as `Series.min()`. -/
def listMinD (d : ℚ) : List ℚ → ℚ
  | [] => d
  | x :: xs => xs.foldl min x

/-- Embedding of the inner `calculate_max_drawdown` of `analyze_performance`
(src/backtester.py lines 214-217): `min(values / cummax(values) - 1)`. -/
def maxDrawdown (values : List ℚ) : ℚ :=
  listMinD 0 ((values.zip (cummax values)).map (fun vc => vc.1 / vc.2 - 1))

/-- The printed/returned metrics of `analyze_performance` that the claims
touch.  The Sharpe ratios are left out: on fewer than two returns they are
IEEE-754 NaN values, which have no shallow rational embedding, and no claim
constrains their value. -/
structure PerformanceReport where
  strategyTotalReturn : ℚ
  benchmarkTotalReturn : ℚ
  strategyMaxDrawdown : ℚ
  benchmarkMaxDrawdown : ℚ
  strategyFinalValue : ℚ
  benchmarkFinalValue : ℚ
  deriving DecidableEq, Repr

/-- Embedding of `Backtester.analyze_performance` (src/backtester.py lines
180-234) on the recorded value series.  The only guard in the source is
`if not self.portfolio_values: raise ValueError(...)`; an empty benchmark
list then faults in `set_index("Date")` (`KeyError`).  With at least one
snapshot the metrics are computed and a report is produced. -/
def analyzePerformance (initialCapital : ℚ)
    (portfolioValues : List ℚ) (benchmarkValues : List ℚ) :
    Except String PerformanceReport :=
  match portfolioValues with
  | [] => .error "No portfolio values to analyze. Run backtest first."
  | v :: vs =>
    match benchmarkValues with
    | [] => .error "KeyError: Date"
    | b :: bs =>
      let strategyFinal := (v :: vs).getLastD 0
      let benchmarkFinal := (b :: bs).getLastD 0
      .ok { strategyTotalReturn :=
              (strategyFinal - initialCapital) / initialCapital
            benchmarkTotalReturn :=
              (benchmarkFinal - initialCapital) / initialCapital
            strategyMaxDrawdown := maxDrawdown (v :: vs)
            benchmarkMaxDrawdown := maxDrawdown (b :: bs)
            strategyFinalValue := strategyFinal
            benchmarkFinalValue := benchmarkFinal }

lemma executeTrade_cash_nonneg (p : Portfolio) (tr : List TradeRecord)
    (action : String) (quantity : ℤ) (price : ℚ)
    (hc : 0 ≤ p.cash) (hpr : 0 < price) :
    0 ≤ (executeTrade p tr action quantity price).1.cash := by
  simp only [executeTrade]
  split_ifs with h1 h2 h3 h4 h5 <;> dsimp only
  · linarith
  · have hfl : ((⌊p.cash / price⌋ : ℤ) : ℚ) * price ≤ p.cash := by
      have h := Int.floor_le (p.cash / price)
      have := mul_le_mul_of_nonneg_right h (le_of_lt hpr)
      rwa [div_mul_cancel₀ _ (ne_of_gt hpr)] at this
    linarith
  · exact hc
  · have hq : (0 : ℚ) ≤ ((min quantity p.stock : ℤ) : ℚ) := by
      exact_mod_cast le_of_lt h5
    nlinarith
  · exact hc
  · exact hc

lemma executeTrade_stock_nonneg (p : Portfolio) (tr : List TradeRecord)
    (action : String) (quantity : ℤ) (price : ℚ)
    (hs : 0 ≤ p.stock) :
    0 ≤ (executeTrade p tr action quantity price).1.stock := by
  simp only [executeTrade]
  split_ifs with h1 h2 h3 h4 h5 <;> dsimp only <;> omega

lemma applyOrders_nonneg (orders : List Order) :
    ∀ s : Portfolio × List TradeRecord,
      0 ≤ s.1.cash → 0 ≤ s.1.stock → (∀ o ∈ orders, 0 < o.price) →
      0 ≤ (applyOrders s orders).1.cash ∧ 0 ≤ (applyOrders s orders).1.stock := by
  induction orders with
  | nil => intro s hc hs _; exact ⟨hc, hs⟩
  | cons o rest ih =>
    intro s hc hs hp
    have hpo : 0 < o.price := hp o (List.mem_cons_self o rest)
    have hc' := executeTrade_cash_nonneg s.1 s.2 o.action o.quantity o.price hc hpo
    have hs' := executeTrade_stock_nonneg s.1 s.2 o.action o.quantity o.price hs
    have := ih (applyOrder s o) hc' hs'
      (fun o' ho' => hp o' (List.mem_cons_of_mem o ho'))
    simpa [applyOrders] using this

lemma executeTrade_buy_unfold (p : Portfolio) (tr : List TradeRecord)
    (q : ℤ) (pr : ℚ) (hq : 0 < q) :
    executeTrade p tr "buy" q pr =
      if (q : ℚ) * pr ≤ p.cash then
        (⟨p.cash - q * pr, p.stock + q⟩,
         tr ++ [⟨"buy", q, pr, (q : ℚ) * pr⟩], q)
      else if 0 < ⌊p.cash / pr⌋ then
        (⟨p.cash - ⌊p.cash / pr⌋ * pr, p.stock + ⌊p.cash / pr⌋⟩,
         tr ++ [⟨"buy", ⌊p.cash / pr⌋, pr, (⌊p.cash / pr⌋ : ℚ) * pr⟩],
         ⌊p.cash / pr⌋)
      else (p, tr, 0) := by
  simp only [executeTrade]
  rw [if_pos (show True ∧ 0 < q from ⟨trivial, hq⟩)]

lemma executeTrade_sell_unfold (p : Portfolio) (tr : List TradeRecord)
    (q : ℤ) (pr : ℚ) (hq : 0 < q) :
    executeTrade p tr "sell" q pr =
      if 0 < min q p.stock then
        (⟨p.cash + ((min q p.stock : ℤ) : ℚ) * pr, p.stock - min q p.stock⟩,
         tr ++ [⟨"sell", min q p.stock, pr, ((min q p.stock : ℤ) : ℚ) * pr⟩],
         min q p.stock)
      else (p, tr, 0) := by
  simp only [executeTrade]
  rw [if_neg (show ¬(("sell" : String) = "buy" ∧ 0 < q) from
    fun hh => absurd hh.1 (by decide)),
    if_pos (show True ∧ 0 < q from ⟨trivial, hq⟩)]

/-- C1: every `execute_trade` call on a state with `cash ≥ 0` and `stock ≥ 0`
and a positive price leaves `cash ≥ 0` and `stock ≥ 0`; consequently, for
every order sequence started from `{cash: initial_capital, stock: 0}` with
`initial_capital ≥ 0`, cash and stock are non-negative after every step
(i.e. after every prefix of the sequence). -/
theorem execute_trade_preserves_nonneg :
    (∀ (p : Portfolio) (tr : List TradeRecord) (action : String)
        (quantity : ℤ) (price : ℚ),
      0 ≤ p.cash → 0 ≤ p.stock → 0 < price →
      0 ≤ (executeTrade p tr action quantity price).1.cash ∧
        0 ≤ (executeTrade p tr action quantity price).1.stock) ∧
    (∀ (initialCapital : ℚ) (orders : List Order),
      0 ≤ initialCapital → (∀ o ∈ orders, 0 < o.price) →
      ∀ n : ℕ,
        0 ≤ (applyOrders (⟨initialCapital, 0⟩, []) (orders.take n)).1.cash ∧
          0 ≤ (applyOrders (⟨initialCapital, 0⟩, []) (orders.take n)).1.stock) := by
  constructor
  · intro p tr action quantity price hc hs hpr
    exact ⟨executeTrade_cash_nonneg p tr action quantity price hc hpr,
      executeTrade_stock_nonneg p tr action quantity price hs⟩
  · intro C orders hC hp n
    exact applyOrders_nonneg (orders.take n) (⟨C, 0⟩, []) hC le_rfl
      (fun o ho => hp o (List.take_subset n orders ho))

/-- Witness for C1 at concrete inputs. -/
theorem execute_trade_preserves_nonneg_witness :
    (0 ≤ (executeTrade ⟨100, 0⟩ [] "buy" 3 7).1.cash ∧
      0 ≤ (executeTrade ⟨100, 0⟩ [] "buy" 3 7).1.stock) ∧
    (0 ≤ (applyOrders (⟨50, 0⟩, [])
        ([⟨"buy", 2, 10⟩, ⟨"sell", 5, 12⟩].take 2)).1.cash ∧
      0 ≤ (applyOrders (⟨50, 0⟩, [])
        ([⟨"buy", 2, 10⟩, ⟨"sell", 5, 12⟩].take 2)).1.stock) := by
  refine ⟨execute_trade_preserves_nonneg.1 ⟨100, 0⟩ [] "buy" 3 7
      (by norm_num) (by norm_num) (by norm_num),
    execute_trade_preserves_nonneg.2 50 [⟨"buy", 2, 10⟩, ⟨"sell", 5, 12⟩]
      (by norm_num) ?_ 2⟩
  intro o ho
  simp only [List.mem_cons, List.not_mem_nil, or_false] at ho
  rcases ho with rfl | rfl <;> norm_num

/-- C2: a `buy` with positive requested quantity and positive price fills the
full quantity when affordable (cash down by `q * price`, stock up by `q`,
record appended, fill returned); otherwise it fills exactly
`⌊cash / price⌋` shares, which is a no-op (fill 0, nothing recorded) exactly
when even one share is unaffordable. -/
theorem execute_trade_buy_spec (p : Portfolio) (tr : List TradeRecord)
    (q : ℤ) (pr : ℚ) (hq : 0 < q) (hpr : 0 < pr) (hc : 0 ≤ p.cash) :
    ((q : ℚ) * pr ≤ p.cash →
      executeTrade p tr "buy" q pr =
        (⟨p.cash - q * pr, p.stock + q⟩,
         tr ++ [⟨"buy", q, pr, q * pr⟩], q)) ∧
    (p.cash < (q : ℚ) * pr →
      (executeTrade p tr "buy" q pr).2.2 = ⌊p.cash / pr⌋ ∧
      (0 < ⌊p.cash / pr⌋ →
        executeTrade p tr "buy" q pr =
          (⟨p.cash - ⌊p.cash / pr⌋ * pr, p.stock + ⌊p.cash / pr⌋⟩,
           tr ++ [⟨"buy", ⌊p.cash / pr⌋, pr, ⌊p.cash / pr⌋ * pr⟩],
           ⌊p.cash / pr⌋)) ∧
      (p.cash < pr → executeTrade p tr "buy" q pr = (p, tr, 0))) := by
  have hfloor0 : 0 ≤ ⌊p.cash / pr⌋ := Int.floor_nonneg.mpr (div_nonneg hc hpr.le)
  rw [executeTrade_buy_unfold p tr q pr hq]
  constructor
  · intro h
    rw [if_pos h]
  · intro h
    have hnot : ¬((q : ℚ) * pr ≤ p.cash) := not_le.mpr h
    rw [if_neg hnot]
    refine ⟨?_, ?_, ?_⟩
    · by_cases hm : 0 < ⌊p.cash / pr⌋
      · rw [if_pos hm]
      · rw [if_neg hm]
        dsimp only
        omega
    · intro hm
      rw [if_pos hm]
    · intro h1
      have hz : ⌊p.cash / pr⌋ < 1 := by
        rw [Int.floor_lt]
        push_cast
        exact (div_lt_one hpr).mpr h1
      rw [if_neg (by omega)]

/-- Witness for C2 at concrete inputs: full fill, partial fill, rejected. -/
theorem execute_trade_buy_spec_witness :
    executeTrade ⟨100, 0⟩ [] "buy" 3 7 =
      (⟨79, 3⟩, [⟨"buy", 3, 7, 21⟩], 3) ∧
    (executeTrade ⟨7, 0⟩ [] "buy" 5 2).2.2 = 3 ∧
    executeTrade ⟨1, 0⟩ [] "buy" 5 2 = (⟨1, 0⟩, [], 0) := by
  have h1 := (execute_trade_buy_spec ⟨100, 0⟩ [] 3 7
    (by norm_num) (by norm_num) (by norm_num)).1 (by norm_num)
  have h2 := ((execute_trade_buy_spec ⟨7, 0⟩ [] 5 2
    (by norm_num) (by norm_num) (by norm_num)).2 (by norm_num)).1
  have h3 := ((execute_trade_buy_spec ⟨1, 0⟩ [] 5 2
    (by norm_num) (by norm_num) (by norm_num)).2 (by norm_num)).2.2 (by norm_num)
  refine ⟨?_, ?_, h3⟩
  · rw [h1]; norm_num
  · rw [h2]
    rw [show (⟨7, 0⟩ : Portfolio).cash = (7 : ℚ) from rfl, Int.floor_eq_iff]
    norm_num

/-- C3: a `sell` with positive requested quantity fills exactly
`min(q, stock)`: when that minimum is 0 nothing changes and nothing is
recorded, otherwise cash goes up and stock down by the filled amount, one
record is appended, and the fill is returned. -/
theorem execute_trade_sell_spec (p : Portfolio) (tr : List TradeRecord)
    (q : ℤ) (pr : ℚ) (hq : 0 < q) (hs : 0 ≤ p.stock) :
    (executeTrade p tr "sell" q pr).2.2 = min q p.stock ∧
    (min q p.stock = 0 → executeTrade p tr "sell" q pr = (p, tr, 0)) ∧
    (0 < min q p.stock →
      executeTrade p tr "sell" q pr =
        (⟨p.cash + ((min q p.stock : ℤ) : ℚ) * pr, p.stock - min q p.stock⟩,
         tr ++ [⟨"sell", min q p.stock, pr, ((min q p.stock : ℤ) : ℚ) * pr⟩],
         min q p.stock)) := by
  rw [executeTrade_sell_unfold p tr q pr hq]
  have hmin : 0 ≤ min q p.stock := le_min hq.le hs
  refine ⟨?_, ?_, ?_⟩
  · by_cases hm : 0 < min q p.stock
    · rw [if_pos hm]
    · rw [if_neg hm]
      dsimp only
      omega
  · intro h0
    rw [if_neg (by omega)]
  · intro hm
    rw [if_pos hm]

/-- Witness for C3 at concrete inputs: capped fill, and a no-op when the
portfolio holds no shares. -/
theorem execute_trade_sell_spec_witness :
    executeTrade ⟨1, 3⟩ [] "sell" 5 2 = (⟨7, 0⟩, [⟨"sell", 3, 2, 6⟩], 3) ∧
    executeTrade ⟨1, 0⟩ [] "sell" 5 2 = (⟨1, 0⟩, [], 0) := by
  have h1 := (execute_trade_sell_spec ⟨1, 3⟩ [] 5 2
    (by norm_num) (by norm_num)).2.2 (by decide)
  have h2 := (execute_trade_sell_spec ⟨1, 0⟩ [] 5 2
    (by norm_num) (by norm_num)).2.1 (by decide)
  refine ⟨?_, h2⟩
  rw [h1]
  have hm : min (5 : ℤ) (⟨1, 3⟩ : Portfolio).stock = 3 := by decide
  rw [hm]
  norm_num

/-- C9: `hold`, any action other than `buy`/`sell`, or a non-positive
requested quantity leaves the portfolio and the trade log untouched and
returns 0. -/
theorem execute_trade_no_op (p : Portfolio) (tr : List TradeRecord)
    (action : String) (q : ℤ) (pr : ℚ)
    (h : action = "hold" ∨ (action ≠ "buy" ∧ action ≠ "sell") ∨ q ≤ 0) :
    executeTrade p tr action q pr = (p, tr, 0) := by
  rcases h with h | h | h
  · subst h
    simp [executeTrade]
  · simp [executeTrade, h.1, h.2]
  · simp [executeTrade, not_lt.mpr h]

/-- Witness for C9 at concrete inputs: `hold`, an unknown action, and a
negative quantity. -/
theorem execute_trade_no_op_witness :
    executeTrade ⟨5, 2⟩ [] "hold" 4 3 = (⟨5, 2⟩, [], 0) ∧
    executeTrade ⟨5, 2⟩ [] "BUY" 4 3 = (⟨5, 2⟩, [], 0) ∧
    executeTrade ⟨5, 2⟩ [] "buy" (-2) 3 = (⟨5, 2⟩, [], 0) := by
  refine ⟨execute_trade_no_op ⟨5, 2⟩ [] "hold" 4 3 (Or.inl rfl),
    execute_trade_no_op ⟨5, 2⟩ [] "BUY" 4 3
      (Or.inr (Or.inl ⟨by decide, by decide⟩)),
    execute_trade_no_op ⟨5, 2⟩ [] "buy" (-2) 3
      (Or.inr (Or.inr (by norm_num)))⟩

/-- C4 counterexample: with exactly one recorded snapshot `analyze_performance`
does not fail — the only guard in the source rejects the empty list — so a
report is produced, contradicting the claimed `InsufficientDataError` on
fewer than 2 snapshots. -/
theorem analyze_performance_one_snapshot_counterexample :
    analyzePerformance 100 [100] [100, 101] =
      Except.ok ⟨0, 1 / 100, 0, 0, 100, 101⟩ := by
  norm_num [analyzePerformance, maxDrawdown, cummax, cummaxAux, listMinD]

/-- C4 (amended): `analyze_performance` raises (`ValueError`) exactly when no
snapshot was recorded; with one or more snapshots (and a non-empty benchmark
series) it returns a report — in particular a run with exactly one snapshot
returns a report instead of failing. -/
theorem analyze_performance_guard_spec :
    (∀ (initialCapital : ℚ) (benchmarkValues : List ℚ),
      analyzePerformance initialCapital [] benchmarkValues =
        Except.error "No portfolio values to analyze. Run backtest first.") ∧
    (∀ (initialCapital v b : ℚ) (vs bs : List ℚ),
      ∃ report,
        analyzePerformance initialCapital (v :: vs) (b :: bs) =
          Except.ok report) := by
  exact ⟨fun _ _ => rfl, fun _ _ _ _ _ => ⟨_, rfl⟩⟩

/-- C5 counterexample: with `end_date` before `start_date` and negative
initial capital, `__init__` still succeeds with an ordinary state, and
`run_backtest` still issues the complete-range external price query — no
`ConfigurationError` exists and work is not stopped before external
queries. -/
theorem configuration_not_validated_counterexample :
    initBacktester ⟨"AAPL", "2021-01-01", "2020-01-01", -100⟩ =
      ⟨⟨-100, 0⟩, [], [], []⟩ ∧
    (runBacktest ⟨"AAPL", "2021-01-01", "2020-01-01", -100⟩
        (initBacktester ⟨"AAPL", "2021-01-01", "2020-01-01", -100⟩)
        none []).1 =
      [⟨"AAPL", "2021-01-01", "2020-01-01"⟩] := by
  exact ⟨rfl, rfl⟩

/-- C5 (amended): the code performs no configuration validation at all:
`__init__` accepts any date range and any capital and just stores them, and
`run_backtest` always issues the complete-range price query as its first
external action, whatever the configuration; an inverted date range or bad
capital surfaces (if at all) only as a failure of that fetch or of the
benchmark simulation, after the query was issued. -/
theorem configuration_not_validated :
    (∀ cfg : BacktesterConfig,
      initBacktester cfg = ⟨⟨cfg.initialCapital, 0⟩, [], [], []⟩) ∧
    (∀ (cfg : BacktesterConfig) (st : BacktesterState)
        (completeData : Option (List ℚ)) (days : List DayInput),
      (runBacktest cfg st completeData days).1.head? =
        some ⟨cfg.ticker, cfg.startDate, cfg.endDate⟩) := by
  refine ⟨fun _ => rfl, fun cfg st completeData days => ?_⟩
  cases completeData with
  | none => rfl
  | some data =>
    simp only [runBacktest]
    cases hsim : simulateBuyAndHold cfg.initialCapital data <;> simp [hsim]

/-- C6: a day whose workflow call or price fetch raises is skipped with the
state (portfolio, snapshots, trades) untouched and the loop continues on the
remaining days from that same state; and once the initial benchmark data is
available no per-day failure can abort the run, which always ends in a final
state. -/
theorem failing_day_skipped :
    (∀ (st : BacktesterState) (d : DayInput),
      d.decisionText = none ∨ d.price = none → processDay st d = st) ∧
    (∀ (st : BacktesterState) (d : DayInput) (rest : List DayInput),
      d.decisionText = none ∨ d.price = none →
      runDays st (d :: rest) = runDays st rest) ∧
    (∀ (cfg : BacktesterConfig) (st : BacktesterState) (data : List ℚ)
        (days : List DayInput),
      data ≠ [] →
      ∃ finalState,
        (runBacktest cfg st (some data) days).2 = Except.ok finalState) := by
  have hskip : ∀ (st : BacktesterState) (d : DayInput),
      d.decisionText = none ∨ d.price = none → processDay st d = st := by
    intro st d h
    rcases h with h | h
    · simp [processDay, h]
    · cases hd : d.decisionText with
      | none => simp [processDay, hd]
      | some txt => simp [processDay, hd, h]
  refine ⟨hskip, ?_, ?_⟩
  · intro st d rest h
    simp [runDays, hskip st d h]
  · intro cfg st data days hdata
    rcases data with _ | ⟨p0, rest⟩
    · exact absurd rfl hdata
    · exact ⟨_, rfl⟩

/-- Witness for C6 at concrete inputs: a day with no price data, a day whose
workflow raised, and a one-bar run that completes. -/
theorem failing_day_skipped_witness :
    processDay ⟨⟨100, 0⟩, [], [], []⟩
      ⟨"2024-01-02", some "action: buy\nquantity: 1", none⟩ =
      ⟨⟨100, 0⟩, [], [], []⟩ ∧
    runDays ⟨⟨100, 0⟩, [], [], []⟩ [⟨"2024-01-02", none, some 10⟩] =
      runDays ⟨⟨100, 0⟩, [], [], []⟩ [] ∧
    ∃ finalState,
      (runBacktest ⟨"AAPL", "2024-01-01", "2024-01-05", 100⟩
          ⟨⟨100, 0⟩, [], [], []⟩ (some [10]) []).2 =
        Except.ok finalState := by
  exact ⟨failing_day_skipped.1 _ _ (Or.inr rfl),
    failing_day_skipped.2.1 _ _ _ (Or.inl rfl),
    failing_day_skipped.2.2 _ _ [10] [] (List.cons_ne_nil 10 [])⟩

lemma getLastD_map_range {α : Type} (F : ℕ → α) (n : ℕ) (hn : 0 < n)
    (d : α) : (((List.range n).map F).getLastD d) = F (n - 1) := by
  have h1 : n - 1 < n := Nat.sub_lt hn Nat.one_pos
  rw [List.getLastD_eq_getLast?, List.getLast?_map, List.getLast?_eq_getElem?]
  simp [h1]

lemma smaSeries_getLastD (w : ℕ) (closes : List ℚ) (h : closes ≠ []) :
    (smaSeries w closes).getLastD 0 =
      if closes.length < w then 0
      else (closes.drop (closes.length - w)).sum / w := by
  have hn : 0 < closes.length := List.length_pos.mpr h
  have hmap : smaSeries w closes =
      (List.range closes.length).map (fun i =>
        (if i + 1 < w then (none : Option ℚ)
         else some (((closes.take (i + 1)).drop (i + 1 - w)).sum / w)).getD 0) := by
    simp [smaSeries, fillna0, rollingMean, List.map_map, Function.comp]
  rw [hmap, getLastD_map_range _ _ hn]
  have hsucc : closes.length - 1 + 1 = closes.length := Nat.succ_pred_eq_of_pos hn
  rw [hsucc]
  by_cases hlt : closes.length < w
  · rw [if_pos hlt, if_pos hlt]
    rfl
  · rw [if_neg hlt, if_neg hlt, List.take_length]
    rfl

/-- C7: on any non-empty price series the signals are produced, and the
reported `sma_50` is 0 (not missing) whenever fewer than 50 bars exist —
whatever the prices — and is the arithmetic mean of the last 50 closes once
at least 50 bars exist. -/
theorem sma50_warmup_spec (closes : List ℚ) (h : closes ≠ []) :
    ∃ s, calculateTradingSignals closes = Except.ok s ∧
      (closes.length < 50 → s.sma50 = 0) ∧
      (50 ≤ closes.length →
        s.sma50 = (closes.drop (closes.length - 50)).sum / 50) := by
  have hne : ¬(closes.isEmpty = true) := by simp [h]
  refine ⟨{ currentPrice := closes.getLastD 0
            sma5 := (smaSeries 5 closes).getLastD 0
            sma20 := (smaSeries 20 closes).getLastD 0
            sma50 := (smaSeries 50 closes).getLastD 0 }, ?_, ?_, ?_⟩
  · simp only [calculateTradingSignals]
    rw [if_neg hne]
  · intro hlt
    dsimp only
    rw [smaSeries_getLastD 50 closes h, if_pos hlt]
  · intro hge
    dsimp only
    rw [smaSeries_getLastD 50 closes h, if_neg (not_lt.mpr hge)]
    norm_num

/-- Witness for C7 at concrete inputs: a 3-bar series is still in warm-up
(`sma_50 = 0`); a 50-bar constant series reports the mean of its closes. -/
theorem sma50_warmup_spec_witness :
    (∃ s, calculateTradingSignals [1, 2, 3] = Except.ok s ∧ s.sma50 = 0) ∧
    (∃ s, calculateTradingSignals (List.replicate 50 2) = Except.ok s ∧
      s.sma50 = (List.replicate 50 (2 : ℚ)).sum / 50) := by
  constructor
  · obtain ⟨s, h1, h2, _⟩ := sma50_warmup_spec [1, 2, 3] (by decide)
    exact ⟨s, h1, h2 (by norm_num)⟩
  · obtain ⟨s, h1, _, h3⟩ :=
      sma50_warmup_spec (List.replicate 50 2) (by simp)
    refine ⟨s, h1, ?_⟩
    have := h3 (by simp)
    simpa using this

/-- C8: on a non-empty price series with positive first close `p0` and
non-negative capital `C`, buy-and-hold produces exactly one value per bar,
namely `s * p + (C - s * p0)` for the bar's close `p`, with
`s = ⌊C / p0⌋` the maximum whole-share position affordable on day one; the
unspent-cash term `C - s * p0` is the same constant in every entry. -/
theorem simulate_buy_and_hold_spec (C p0 : ℚ) (rest : List ℚ)
    (hC : 0 ≤ C) (hp : 0 < p0) :
    simulateBuyAndHold C (p0 :: rest) =
      some ((p0 :: rest).map
        (fun p => (⌊C / p0⌋ : ℚ) * p + (C - (⌊C / p0⌋ : ℚ) * p0))) ∧
    ∀ out, simulateBuyAndHold C (p0 :: rest) = some out →
      out.length = (p0 :: rest).length := by
  have ht : truncRat (C / p0) = ⌊C / p0⌋ :=
    if_pos (div_nonneg hC hp.le)
  constructor
  · simp only [simulateBuyAndHold, ht]
  · intro out hout
    simp only [simulateBuyAndHold, Option.some.injEq] at hout
    rw [← hout]
    simp

/-- Witness for C8 at a concrete input. -/
theorem simulate_buy_and_hold_spec_witness :
    simulateBuyAndHold 1000 [100, 102] =
      some ([100, 102].map
        (fun p => (⌊(1000 : ℚ) / 100⌋ : ℚ) * p +
          (1000 - (⌊(1000 : ℚ) / 100⌋ : ℚ) * 100))) :=
  (simulate_buy_and_hold_spec 1000 100 [102] (by norm_num) (by norm_num)).1

lemma lookupLast_eq_none (pairs : List (String × String)) (key : String)
    (h : ∀ kv ∈ pairs, kv.1 ≠ key) : lookupLast pairs key = none := by
  unfold lookupLast
  rw [List.find?_eq_none.mpr]
  · rfl
  · intro kv hkv
    simpa using h kv (List.mem_reverse.mp hkv)

/-- C10: `parse_trading_decision` is total and returns `(action, quantity)`
for every input: the action falls back to `"hold"` when no `action:` line
exists, the quantity falls back to 0 when the `quantity:` value is absent or
not an integer literal, yet a parseable negative quantity is returned as-is —
and only the positive-quantity guard of `execute_trade` keeps such an order
from touching the portfolio. -/
theorem parse_trading_decision_total_defaults :
    (∀ s : String, (∀ kv ∈ decisionPairs s, kv.1 ≠ "action") →
      (parseTradingDecision s).1 = "hold") ∧
    (∀ s : String, (∀ kv ∈ decisionPairs s, kv.1 ≠ "quantity") →
      (parseTradingDecision s).2 = 0) ∧
    (∀ (s v : String),
      lookupLast (decisionPairs s) "quantity" = some v →
      pyIntOfString v = none → (parseTradingDecision s).2 = 0) ∧
    parseTradingDecision "action: sell\nquantity: -3" = ("sell", -3) ∧
    (∀ (p : Portfolio) (tr : List TradeRecord) (pr : ℚ),
      executeTrade p tr (parseTradingDecision "action: sell\nquantity: -3").1
        (parseTradingDecision "action: sell\nquantity: -3").2 pr =
        (p, tr, 0)) := by
  have h4 : parseTradingDecision "action: sell\nquantity: -3" =
      ("sell", -3) := by decide
  refine ⟨?_, ?_, ?_, h4, ?_⟩
  · intro s h
    simp [parseTradingDecision, lookupLast_eq_none _ _ h]
  · intro s h
    simp [parseTradingDecision, lookupLast_eq_none _ _ h,
      show pyIntOfString "0" = some 0 from by decide]
  · intro s v h1 h2
    simp [parseTradingDecision, h1, h2]
  · intro p tr pr
    rw [h4]
    norm_num [executeTrade]

/-- Witness for C10 at concrete inputs: a colon-free text, an unparseable
quantity, and the negative-quantity order bounced by `execute_trade`. -/
theorem parse_trading_decision_total_defaults_witness :
    (parseTradingDecision "hello").1 = "hold" ∧
    (parseTradingDecision "hello").2 = 0 ∧
    (parseTradingDecision "quantity: 2x").2 = 0 ∧
    executeTrade ⟨4, 1⟩ []
      (parseTradingDecision "action: sell\nquantity: -3").1
      (parseTradingDecision "action: sell\nquantity: -3").2 5 =
      (⟨4, 1⟩, [], 0) := by
  exact ⟨parse_trading_decision_total_defaults.1 "hello" (by decide),
    parse_trading_decision_total_defaults.2.1 "hello" (by decide),
    parse_trading_decision_total_defaults.2.2.1 "quantity: 2x" "2x"
      (by decide) (by decide),
    parse_trading_decision_total_defaults.2.2.2.2 ⟨4, 1⟩ [] 5⟩

end LLMEdgefund
